import Mathlib

/-!
Verification of the discovery-orchestration core (`Core_Framework.py`).

The Python source is shallowly embedded: the data model (`DiscoveryContext`,
`DiscoveryFinding`, `OrchestratorEvent`, `DiscoveryRunResult`), the module
contract and the orchestrator's `run` loop become executable Lean functions.
Python `datetime` values are embedded as explicit calendar records
(`PyDatetime`), `datetime.isoformat` / `datetime.fromisoformat` /
`str.replace` are modelled as executable functions over character lists, and
Python object identity (the `is` operator, used by the orchestrator's
defensive context check) is modelled by an explicit object-identity tag
`oid` on contexts.
-/

set_option linter.unusedVariables false

namespace NetDisc

/-! ## Python `datetime` model

A `datetime.datetime` value: calendar fields plus an optional fixed UTC
offset in minutes (`none` models a naive datetime, `some o` a tz-aware one
with `utcoffset = o` minutes).  Python's `datetime` guarantees
`1 <= year <= 9999` and in-range month/day/time fields at construction; the
embedding states those bounds as the predicate `PyDatetime.validFields`
where a theorem needs them. -/

structure PyDatetime where
  year : Nat
  month : Nat
  day : Nat
  hour : Nat
  minute : Nat
  second : Nat
  microsecond : Nat
  tz : Option Int
deriving DecidableEq, Repr

/-- Proleptic-Gregorian leap-year test, as in Python's `calendar.isleap`. -/
def isLeap (y : Nat) : Bool :=
  (y % 4 == 0 && y % 100 != 0) || y % 400 == 0

/-- Days in month `m` (1-12) of year `y`. -/
def daysInMonth (y m : Nat) : Nat :=
  match m with
  | 1 => 31
  | 2 => if isLeap y then 29 else 28
  | 3 => 31
  | 4 => 30
  | 5 => 31
  | 6 => 30
  | 7 => 31
  | 8 => 31
  | 9 => 30
  | 10 => 31
  | 11 => 30
  | 12 => 31
  | _ => 0

/-- CPython's `_DAYS_BEFORE_MONTH` table (extended at 13 with the full
common year, handy for stating "days before the end of the year"). -/
def daysBeforeMonthBase : Nat → Nat
  | 1 => 0
  | 2 => 31
  | 3 => 59
  | 4 => 90
  | 5 => 120
  | 6 => 151
  | 7 => 181
  | 8 => 212
  | 9 => 243
  | 10 => 273
  | 11 => 304
  | 12 => 334
  | 13 => 365
  | _ => 0

/-- Days in year `y` strictly before month `m`
(CPython `datetime._days_before_month`). -/
def daysBeforeMonth (y m : Nat) : Nat :=
  daysBeforeMonthBase m + (if 3 ≤ m ∧ m ≤ 13 ∧ isLeap y then 1 else 0)

/-- Days strictly before year `y` in the proleptic Gregorian calendar
(`datetime._days_before_year`). -/
def daysBeforeYear (y : Nat) : Nat :=
  let n := y - 1
  365 * n + n / 4 - n / 100 + n / 400

/-- Days in year `y`. -/
def daysInYear (y : Nat) : Nat := if isLeap y then 366 else 365

/-- Python `date.toordinal`: day number of (y, m, d), with 0001-01-01 = 1. -/
def toOrdinal (y m d : Nat) : Nat :=
  daysBeforeYear y + daysBeforeMonth y m + d

/-- Inverse of `toOrdinal` (Python `date.fromordinal`): year by greatest
`y ≤ 9999` whose first day is at or before `n`, then month likewise. -/
def fromOrdinal (n : Nat) : Nat × Nat × Nat :=
  let y := Nat.findGreatest (fun y => daysBeforeYear y < n) 9999
  let rem := n - daysBeforeYear y
  let m := Nat.findGreatest (fun m => daysBeforeMonth y m < rem) 12
  (y, m, rem - daysBeforeMonth y m)

def MICROS_PER_DAY : Nat := 86400000000

/-- Microseconds from 0001-01-01T00:00:00 UTC to the instant denoted by `d`
(a naive datetime is read as UTC; the repository only manufactures UTC
datetimes, via `datetime.now(timezone.utc)`). -/
def toInstant (d : PyDatetime) : Int :=
  ((toOrdinal d.year d.month d.day : Int) - 1) * (MICROS_PER_DAY : Int)
    + (d.hour * 3600000000 + d.minute * 60000000 + d.second * 1000000 + d.microsecond : Nat)
    - (d.tz.getD 0) * 60000000

/-- The UTC datetime at instant `t` (microseconds since 0001-01-01). -/
def fromInstantUTC (t : Int) : PyDatetime :=
  let tn := t.toNat
  let dayIdx := tn / MICROS_PER_DAY
  let rem := tn % MICROS_PER_DAY
  let ymd := fromOrdinal (dayIdx + 1)
  { year := ymd.1, month := ymd.2.1, day := ymd.2.2
    hour := rem / 3600000000
    minute := rem / 60000000 % 60
    second := rem / 1000000 % 60
    microsecond := rem % 1000000
    tz := some 0 }

/-- Python `dt.astimezone(timezone.utc)`: an aware datetime is converted to
the UTC datetime denoting the same instant (a no-op on the fields when the
offset is already zero); a naive datetime is interpreted by CPython as local
time — the embedding fixes the local clock to UTC, which is the only case the
repository exercises. -/
def astimezoneUTC (d : PyDatetime) : PyDatetime :=
  if d.tz = some 0 then d else fromInstantUTC (toInstant d)

/-- In-range calendar fields, as guaranteed by Python `datetime` construction
(`MINYEAR = 1`, `MAXYEAR = 9999`; offsets strictly within ±24 h). -/
def PyDatetime.validFields (d : PyDatetime) : Prop :=
  1 ≤ d.year ∧ d.year ≤ 9999 ∧
  1 ≤ d.month ∧ d.month ≤ 12 ∧
  1 ≤ d.day ∧ d.day ≤ daysInMonth d.year d.month ∧
  d.hour ≤ 23 ∧ d.minute ≤ 59 ∧ d.second ≤ 59 ∧ d.microsecond ≤ 999999 ∧
  -1440 < d.tz.getD 0 ∧ d.tz.getD 0 < 1440

instance (d : PyDatetime) : Decidable d.validFields :=
  inferInstanceAs (Decidable (_ ∧ _))

/-! ## ISO-8601 rendering and parsing -/

/-- The character for decimal digit `n` (`n < 10`). -/
def digitChar (n : Nat) : Char := Char.ofNat (48 + n)

def pad2 (n : Nat) : List Char := [digitChar (n / 10), digitChar (n % 10)]

def pad4 (n : Nat) : List Char :=
  [digitChar (n / 1000), digitChar (n / 100 % 10), digitChar (n / 10 % 10), digitChar (n % 10)]

def pad6 (n : Nat) : List Char :=
  [digitChar (n / 100000), digitChar (n / 10000 % 10), digitChar (n / 1000 % 10),
   digitChar (n / 100 % 10), digitChar (n / 10 % 10), digitChar (n % 10)]

/-- Python `datetime.isoformat()`:
`YYYY-MM-DDTHH:MM:SS[.ffffff][±HH:MM]` — the fraction only when the
microsecond field is nonzero, the offset only when the datetime is aware. -/
def isoformatList (d : PyDatetime) : List Char :=
  pad4 d.year ++ '-' :: pad2 d.month ++ '-' :: pad2 d.day ++
  'T' :: pad2 d.hour ++ ':' :: pad2 d.minute ++ ':' :: pad2 d.second ++
  (if d.microsecond = 0 then [] else '.' :: pad6 d.microsecond) ++
  (match d.tz with
   | none => []
   | some o =>
     (if 0 ≤ o then '+' else '-') :: (pad2 (o.natAbs / 60) ++ ':' :: pad2 (o.natAbs % 60)))

def PyDatetime.isoformat (d : PyDatetime) : String := String.mk (isoformatList d)

/-- The date-time portion of `isoformatList` (everything before the UTC
offset designator); used to reason about the `+00:00` → `Z` replacement. -/
def isoCore (d : PyDatetime) : List Char :=
  pad4 d.year ++ '-' :: pad2 d.month ++ '-' :: pad2 d.day ++
  'T' :: pad2 d.hour ++ ':' :: pad2 d.minute ++ ':' :: pad2 d.second ++
  (if d.microsecond = 0 then [] else '.' :: pad6 d.microsecond)

/-- Does `pat` occur at the head of `l`? -/
def startsWithSeq : List Char → List Char → Bool
  | [], _ => true
  | _ :: _, [] => false
  | a :: pa, b :: lb => a == b && startsWithSeq pa lb

/-- Does `pat` occur anywhere in `l` (as a contiguous run)? -/
def containsSeq (pat : List Char) : List Char → Bool
  | [] => startsWithSeq pat []
  | c :: rest => startsWithSeq pat (c :: rest) || containsSeq pat rest

/-- Worker for `replaceAll`: structurally recursive on a fuel argument so
the function reduces definitionally (fuel `l.length` always suffices —
every step consumes at least one input character). -/
def replaceFuel (p0 : Char) (ps rep : List Char) : Nat → List Char → List Char
  | 0, l => l
  | _ + 1, [] => []
  | fuel + 1, c :: rest =>
    if c = p0 ∧ startsWithSeq ps rest then
      rep ++ replaceFuel p0 ps rep fuel (rest.drop ps.length)
    else
      c :: replaceFuel p0 ps rep fuel rest

/-- Replace every non-overlapping occurrence of `p0 :: ps` by `rep`,
scanning left to right (the semantics of Python `str.replace`). -/
def replaceAll (p0 : Char) (ps rep l : List Char) : List Char :=
  replaceFuel p0 ps rep l.length l

/-- Python `s.replace(pat, rep)` (for the nonempty patterns the source uses). -/
def pyReplace (s pat rep : String) : String :=
  match pat.toList with
  | [] => s
  | p0 :: ps => String.mk (replaceAll p0 ps rep.toList s.toList)

/-- Digit value of a character, if it is a decimal digit. -/
def readDigit (c : Char) : Option Nat :=
  if 48 ≤ c.toNat ∧ c.toNat ≤ 57 then some (c.toNat - 48) else none

def read2 : List Char → Option (Nat × List Char)
  | a :: b :: rest =>
    (readDigit a).bind fun x =>
    (readDigit b).bind fun y =>
    some (10 * x + y, rest)
  | _ => none

def read4 (l : List Char) : Option (Nat × List Char) :=
  (read2 l).bind fun hi =>
  (read2 hi.2).bind fun lo =>
  some (100 * hi.1 + lo.1, lo.2)

def read6 (l : List Char) : Option (Nat × List Char) :=
  (read2 l).bind fun a =>
  (read2 a.2).bind fun b =>
  (read2 b.2).bind fun c =>
  some (10000 * a.1 + 100 * b.1 + c.1, c.2)

def expectChar (c : Char) : List Char → Option (List Char)
  | x :: rest => if x = c then some rest else none
  | [] => none

/-- Trailing `±HH:MM` UTC-offset designator (absent for a naive result). -/
def readTz : List Char → Option (Option Int × List Char)
  | [] => some (none, [])
  | c :: rest =>
    if c = '+' ∨ c = '-' then
      (read2 rest).bind fun hh =>
      (expectChar ':' hh.2).bind fun l2 =>
      (read2 l2).bind fun mm =>
      if hh.1 ≤ 23 ∧ mm.1 ≤ 59 then
        some (some (if c = '+' then (Int.ofNat (hh.1 * 60 + mm.1))
                    else -Int.ofNat (hh.1 * 60 + mm.1)), mm.2)
      else none
    else none

/-- Python `datetime.fromisoformat`, restricted to the grammar the framework
emits and consumes: `YYYY-MM-DD[THH:MM:SS[.ffffff]][±HH:MM]`, with the field
range checks `datetime` performs (`ValueError` — here `none` — when out of
range or malformed). -/
def parseIsoList (l : List Char) : Option PyDatetime :=
  (read4 l).bind fun y =>
  (expectChar '-' y.2).bind fun l2 =>
  (read2 l2).bind fun mo =>
  (expectChar '-' mo.2).bind fun l4 =>
  (read2 l4).bind fun dy =>
  if 1 ≤ y.1 ∧ 1 ≤ mo.1 ∧ mo.1 ≤ 12 ∧ 1 ≤ dy.1 ∧ dy.1 ≤ daysInMonth y.1 mo.1 then
    match dy.2 with
    | [] => some ⟨y.1, mo.1, dy.1, 0, 0, 0, 0, none⟩
    | c :: l6 =>
      if c = 'T' then
        (read2 l6).bind fun hh =>
        (expectChar ':' hh.2).bind fun l8 =>
        (read2 l8).bind fun mi =>
        (expectChar ':' mi.2).bind fun l10 =>
        (read2 l10).bind fun ss =>
        if hh.1 ≤ 23 ∧ mi.1 ≤ 59 ∧ ss.1 ≤ 59 then
          (if ss.2.head? = some '.' then read6 ss.2.tail
           else some (0, ss.2)).bind fun us =>
          (readTz us.2).bind fun tzr =>
          if tzr.2 = [] then
            some ⟨y.1, mo.1, dy.1, hh.1, mi.1, ss.1, us.1, tzr.1⟩
          else none
        else none
      else none
  else none

def parseIso (s : String) : Option PyDatetime := parseIsoList s.toList

/-! ## Core data model (`Core_Framework.py`)

`oid` models Python object identity: the orchestrator's defensive check
`module.context is context` compares references, so two structurally equal
contexts may still mismatch.  Python `Dict[str, Any]` evidence payloads are
embedded as string-keyed association lists, `float` confidence as `Rat`. -/

/-- `DiscoveryContext` — frozen dataclass: target, run start, source host,
assumptions, optional run id (plus the object-identity tag). -/
structure DiscoveryContext where
  oid : Nat
  target : String
  run_started_at : PyDatetime
  source_host : String
  assumptions : List String
  run_id : Option String := none
deriving DecidableEq, Repr

/-- `DiscoveryFinding` — frozen dataclass: domain, category, target,
evidence, confidence, observed_at.  No field validation is performed at
construction (plain `@dataclass(frozen=True)`). -/
structure DiscoveryFinding where
  domain : String
  category : String
  target : String
  evidence : List (String × String)
  confidence : Rat
  observed_at : PyDatetime
deriving DecidableEq, Repr

/-- The dictionary produced by `DiscoveryFinding.to_dict`: same fields, with
`observed_at` rendered as a string. -/
structure FindingDict where
  domain : String
  category : String
  target : String
  evidence : List (String × String)
  confidence : Rat
  observed_at : String
deriving DecidableEq, Repr

/-- `DiscoveryFinding.to_dict`: `asdict(self)` with `observed_at` replaced by
`self.observed_at.astimezone(timezone.utc).isoformat().replace("+00:00", "Z")`. -/
def DiscoveryFinding.to_dict (f : DiscoveryFinding) : FindingDict :=
  { domain := f.domain
    category := f.category
    target := f.target
    evidence := f.evidence
    confidence := f.confidence
    observed_at := pyReplace (astimezoneUTC f.observed_at).isoformat "+00:00" "Z" }

/-- `OrchestratorEvent` — frozen dataclass recording one orchestration
anomaly. -/
structure OrchestratorEvent where
  module : String
  event_type : String
  message : String
  observed_at : PyDatetime
  details : List (String × String)
deriving DecidableEq, Repr

/-- `DiscoveryRunResult` — the aggregate returned by `run`. -/
structure DiscoveryRunResult where
  context : DiscoveryContext
  findings : List DiscoveryFinding
  events : List OrchestratorEvent
deriving DecidableEq, Repr

/-- A raised Python exception: class name and `str(exc)` message. -/
structure PyExc where
  excType : String
  msg : String
deriving DecidableEq, Repr

/-- One element of the sequence a module's `execute` returns, as the
normalization loop discriminates it: a canonical `DiscoveryFinding` (the
`hasattr(f, "to_dict")` branch), a mapping with the equivalent fields (the
`isinstance(f, dict)` branch, `observed_at` either an ISO string or a
datetime value), or anything else (the `TypeError` branch; `tyName` is the
Python type name interpolated into the message). -/
structure FindingMapping where
  domain : String
  category : String
  target : String
  evidence : List (String × String)
  confidence : Rat
  observed_at : String ⊕ PyDatetime
deriving DecidableEq, Repr

inductive RetItem where
  | entity (f : DiscoveryFinding)
  | mapping (m : FindingMapping)
  | other (tyName : String)
deriving DecidableEq, Repr

/-- What calling a module's `execute()` does: raise, return a non-iterable
value (iterating it raises `TypeError`), or return a sequence of items. -/
inductive ExecReturn where
  | seq (items : List RetItem)
  | nonSeq (tyName : String)
deriving DecidableEq, Repr

inductive ExecOutcome where
  | raises (excType msg : String)
  | returns (v : ExecReturn)
deriving DecidableEq, Repr

/-- `DiscoveryModule`: a name, the context bound at construction, and the
behavior of its `execute` method. -/
structure DiscoveryModule where
  name : String
  context : DiscoveryContext
  execute : ExecOutcome
deriving DecidableEq, Repr

/-! ## Orchestrator (`DiscoveryOrchestrator.run`) -/

/-- Parse an observed-at string exactly as the normalization loop does:
`ts = s.replace("Z", "+00:00"); datetime.fromisoformat(ts)` — a parse
failure is `datetime`'s `ValueError`. -/
def parseObservedAt (s : String) : Except PyExc PyDatetime :=
  let ts := pyReplace s "Z" "+00:00"
  match parseIso ts with
  | some d => .ok d
  | none => .error ⟨"ValueError", "Invalid isoformat string: " ++ ts⟩

/-- Normalize one element of a module's return sequence
(`Core_Framework.py` lines 256-271).  The entity branch round-trips the
finding through `dict(f.to_dict())`, re-parsing the rendered `observed_at`
string; the mapping branch parses a string `observed_at` and passes a
datetime value through unchanged; anything else raises `TypeError`. -/
def normItem : RetItem → Except PyExc DiscoveryFinding
  | .entity f =>
    let fd := f.to_dict
    (parseObservedAt fd.observed_at).map fun dtv =>
      ⟨fd.domain, fd.category, fd.target, fd.evidence, fd.confidence, dtv⟩
  | .mapping m =>
    match m.observed_at with
    | .inl s =>
      (parseObservedAt s).map fun dtv =>
        ⟨m.domain, m.category, m.target, m.evidence, m.confidence, dtv⟩
    | .inr dtv => .ok ⟨m.domain, m.category, m.target, m.evidence, m.confidence, dtv⟩
  | .other tyName => .error ⟨"TypeError", "Unsupported finding type: " ++ tyName⟩

/-- The normalization loop: elements in order, first failure aborts the
whole module (the partially built `normalized` list is discarded by the
surrounding `except`). -/
def normalizeList : List RetItem → Except PyExc (List DiscoveryFinding)
  | [] => .ok []
  | i :: rest => do
    let f ← normItem i
    let fs ← normalizeList rest
    pure (f :: fs)

/-- Everything inside the orchestrator's `try` block for one module:
call `execute`, iterate, normalize.  (The subsequent
`isinstance(module_findings, list)` check can never fire, since
`module_findings` was just rebound to the freshly built `normalized` list.) -/
def executeAndNormalize (m : DiscoveryModule) : Except PyExc (List DiscoveryFinding) :=
  match m.execute with
  | .raises ty msg => .error ⟨ty, msg⟩
  | .returns (.nonSeq tyName) =>
    .error ⟨"TypeError", "'" ++ tyName ++ "' object is not iterable"⟩
  | .returns (.seq items) => normalizeList items

/-- The `context_mismatch` event appended at lines 235-246. -/
def mismatchEvent (ctx : DiscoveryContext) (now : PyDatetime) (m : DiscoveryModule) :
    OrchestratorEvent :=
  { module := m.name
    event_type := "context_mismatch"
    message := "Module context does not match orchestrator run context."
    observed_at := now
    details := [("expected_target", ctx.target), ("module_target", m.context.target)] }

/-- The `module_error` event appended at lines 283-293. -/
def errorEvent (now : PyDatetime) (m : DiscoveryModule) (e : PyExc) : OrchestratorEvent :=
  { module := m.name
    event_type := "module_error"
    message := e.msg
    observed_at := now
    details := [("exception_type", e.excType)] }

/-- One iteration of the `for module in self.modules` loop: the findings and
events this module contributes.  `now` stands for the wall clock read by
`datetime.now(timezone.utc)` when an event is created. -/
def processModule (ctx : DiscoveryContext) (now : PyDatetime) (m : DiscoveryModule) :
    List DiscoveryFinding × List OrchestratorEvent :=
  let pre := if m.context.oid = ctx.oid then [] else [mismatchEvent ctx now m]
  match executeAndNormalize m with
  | .ok fs => (fs, pre)
  | .error e => ([], pre ++ [errorEvent now m e])

/-- The whole loop: per-module contributions concatenated in list order. -/
def runModules (ctx : DiscoveryContext) (now : PyDatetime) :
    List DiscoveryModule → List DiscoveryFinding × List OrchestratorEvent
  | [] => ([], [])
  | m :: rest =>
    let p := processModule ctx now m
    let r := runModules ctx now rest
    (p.1 ++ r.1, p.2 ++ r.2)

/-- `DiscoveryOrchestrator`: the ordered module list given to `__init__`. -/
structure DiscoveryOrchestrator where
  modules : List DiscoveryModule
deriving DecidableEq, Repr

/-- `DiscoveryOrchestrator.run(context)`: execute every module, contain
failures per module, and bundle the supplied context with the accumulated
findings and events.  Total by construction — every modelled module behavior
yields a result. -/
def DiscoveryOrchestrator.run (o : DiscoveryOrchestrator) (ctx : DiscoveryContext)
    (now : PyDatetime) : DiscoveryRunResult :=
  let acc := runModules ctx now o.modules
  { context := ctx, findings := acc.1, events := acc.2 }

/-! ## Concrete fixtures (used by witness theorems) -/

def sampleDt : PyDatetime := ⟨2025, 6, 1, 12, 0, 0, 0, some 0⟩

def sampleCtx : DiscoveryContext :=
  ⟨1, "10.0.0.5", sampleDt, "kali", ["No credentials"], some "run-1"⟩

/-- A context whose dataclass fields all equal `sampleCtx`'s but which is a
distinct Python object (different identity tag). -/
def sampleCtx2 : DiscoveryContext :=
  ⟨2, "10.0.0.5", sampleDt, "kali", ["No credentials"], some "run-1"⟩

def sampleFinding : DiscoveryFinding :=
  ⟨"network", "open_port", "10.0.0.5:80", [("method", "tcp_connect")], 7/10, sampleDt⟩

def okModule : DiscoveryModule :=
  ⟨"network", sampleCtx, .returns (.seq [.entity sampleFinding])⟩

def raisingModule : DiscoveryModule :=
  ⟨"identity", sampleCtx, .raises "RuntimeError" "boom"⟩

/-- A module returning the mapping representation equivalent to
`sampleFinding`, with a `Z`-suffixed `observed_at` string. -/
def mapModule : DiscoveryModule :=
  ⟨"network", sampleCtx, .returns (.seq [.mapping
    ⟨"network", "open_port", "10.0.0.5:80", [("method", "tcp_connect")], 7/10,
      .inl "2025-06-01T12:00:00Z"⟩])⟩

/-! ## Structural lemmas about the run loop -/

theorem runModules_append (ctx : DiscoveryContext) (now : PyDatetime)
    (l1 l2 : List DiscoveryModule) :
    runModules ctx now (l1 ++ l2) =
      ((runModules ctx now l1).1 ++ (runModules ctx now l2).1,
       (runModules ctx now l1).2 ++ (runModules ctx now l2).2) := by
  induction l1 with
  | nil => simp [runModules]
  | cons m rest ih => simp [runModules, ih]

theorem runModules_eq_flatten (ctx : DiscoveryContext) (now : PyDatetime)
    (l : List DiscoveryModule) :
    runModules ctx now l =
      ((l.map fun m => (processModule ctx now m).1).flatten,
       (l.map fun m => (processModule ctx now m).2).flatten) := by
  induction l with
  | nil => rfl
  | cons m rest ih => simp [runModules, ih]

/-- The event list one module can contribute: nothing, just a mismatch,
just an error, or a mismatch followed by an error. -/
theorem processModule_events_shape (ctx : DiscoveryContext) (now : PyDatetime)
    (m : DiscoveryModule) :
    (processModule ctx now m).2 = [] ∨
    (processModule ctx now m).2 = [mismatchEvent ctx now m] ∨
    (∃ e, (processModule ctx now m).2 = [errorEvent now m e]) ∨
    (∃ e, (processModule ctx now m).2 = [mismatchEvent ctx now m, errorEvent now m e]) := by
  unfold processModule
  by_cases h : m.context.oid = ctx.oid <;> cases hE : executeAndNormalize m <;>
    simp [h, hE]

theorem runModules_events_taxonomy (ctx : DiscoveryContext) (now : PyDatetime)
    (l : List DiscoveryModule) :
    (runModules ctx now l).2.length ≤ 2 * l.length ∧
    ∀ e ∈ (runModules ctx now l).2,
      e.event_type = "context_mismatch" ∨ e.event_type = "module_error" := by
  induction l with
  | nil => simp [runModules]
  | cons m rest ih =>
    have hs := processModule_events_shape ctx now m
    have hsplit : (runModules ctx now (m :: rest)).2 =
        (processModule ctx now m).2 ++ (runModules ctx now rest).2 := by
      simp [runModules]
    constructor
    · rw [hsplit, List.length_append]
      have h2 : (processModule ctx now m).2.length ≤ 2 := by
        rcases hs with h | h | ⟨e, h⟩ | ⟨e, h⟩ <;> simp [h]
      have h3 := ih.1
      simp only [List.length_cons]
      omega
    · intro e he
      rw [hsplit] at he
      rcases List.mem_append.mp he with hm | hr
      · rcases hs with h | h | ⟨e', h⟩ | ⟨e', h⟩ <;> rw [h] at hm
        · simp at hm
        · simp only [List.mem_singleton] at hm
          subst hm; left; rfl
        · simp only [List.mem_singleton] at hm
          subst hm; right; rfl
        · rcases List.mem_cons.mp hm with rfl | hm2
          · left; rfl
          · simp only [List.mem_singleton] at hm2
            subst hm2; right; rfl
      · exact ih.2 e hr

/-- If some element of the returned sequence fails to normalize, the whole
normalization fails (with the error of the first failing element). -/
theorem normalizeList_error_of_mem (items : List RetItem)
    (h : ∃ i ∈ items, ∃ e : PyExc, normItem i = .error e) :
    ∃ e : PyExc, normalizeList items = .error e := by
  induction items with
  | nil => simp at h
  | cons i rest ih =>
    cases hI : normItem i with
    | error e =>
      refine ⟨e, ?_⟩
      unfold normalizeList
      rw [hI]
      rfl
    | ok f =>
      obtain ⟨j, hj, e, he⟩ := h
      rcases List.mem_cons.mp hj with rfl | hjr
      · rw [hI] at he; cases he
      · obtain ⟨e', he'⟩ := ih ⟨j, hjr, e, he⟩
        refine ⟨e', ?_⟩
        unfold normalizeList
        rw [hI, he']
        rfl

/-! ## Character and replacement lemmas -/

theorem readDigit_digitChar : ∀ d < 10, readDigit (digitChar d) = some d := by decide

theorem digitChar_ne : ∀ d < 10, digitChar d ≠ '+' ∧ digitChar d ≠ 'Z' := by decide

theorem pad2_chars {n : Nat} (h : n < 100) : ∀ c ∈ pad2 n, c ≠ '+' ∧ c ≠ 'Z' := by
  intro c hc
  simp only [pad2, List.mem_cons, List.not_mem_nil, or_false] at hc
  rcases hc with rfl | rfl
  · exact digitChar_ne (n / 10) (by omega)
  · exact digitChar_ne (n % 10) (by omega)

theorem pad4_chars {n : Nat} (h : n < 10000) : ∀ c ∈ pad4 n, c ≠ '+' ∧ c ≠ 'Z' := by
  intro c hc
  simp only [pad4, List.mem_cons, List.not_mem_nil, or_false] at hc
  rcases hc with rfl | rfl | rfl | rfl
  · exact digitChar_ne (n / 1000) (by omega)
  · exact digitChar_ne (n / 100 % 10) (by omega)
  · exact digitChar_ne (n / 10 % 10) (by omega)
  · exact digitChar_ne (n % 10) (by omega)

theorem pad6_chars {n : Nat} (h : n < 1000000) : ∀ c ∈ pad6 n, c ≠ '+' ∧ c ≠ 'Z' := by
  intro c hc
  simp only [pad6, List.mem_cons, List.not_mem_nil, or_false] at hc
  rcases hc with rfl | rfl | rfl | rfl | rfl | rfl
  · exact digitChar_ne (n / 100000) (by omega)
  · exact digitChar_ne (n / 10000 % 10) (by omega)
  · exact digitChar_ne (n / 1000 % 10) (by omega)
  · exact digitChar_ne (n / 100 % 10) (by omega)
  · exact digitChar_ne (n / 10 % 10) (by omega)
  · exact digitChar_ne (n % 10) (by omega)

theorem startsWithSeq_self (l : List Char) : startsWithSeq l l = true := by
  induction l with
  | nil => rfl
  | cons a rest ih => simp [startsWithSeq, ih]

theorem replaceFuel_nil (p0 : Char) (ps rep : List Char) (fuel : Nat) :
    replaceFuel p0 ps rep fuel [] = [] := by
  cases fuel <;> rfl

/-- Replacing the pattern in `core ++ pattern` when the pattern head never
occurs in `core`: exactly the trailing occurrence is rewritten. -/
theorem replaceFuel_exact (p0 : Char) (ps rep : List Char) (core : List Char) (fuel : Nat)
    (hcore : p0 ∉ core) (hfuel : core.length + 1 ≤ fuel) :
    replaceFuel p0 ps rep fuel (core ++ p0 :: ps) = core ++ rep := by
  induction core generalizing fuel with
  | nil =>
    cases fuel with
    | zero => omega
    | succ f =>
      show replaceFuel p0 ps rep (f + 1) (p0 :: ps) = rep
      simp [replaceFuel, startsWithSeq_self, List.drop_length, replaceFuel_nil]
  | cons c core' ih =>
    cases fuel with
    | zero => simp only [List.length_cons] at hfuel; omega
    | succ f =>
      have hc : c ≠ p0 := fun hcp => hcore (by rw [hcp]; exact List.mem_cons_self _ _)
      show replaceFuel p0 ps rep (f + 1) (c :: (core' ++ p0 :: ps)) = c :: (core' ++ rep)
      simp only [replaceFuel]
      rw [if_neg (by rintro ⟨rfl, _⟩; exact hc rfl)]
      have hf : core'.length + 1 ≤ f := by
        simp only [List.length_cons] at hfuel; omega
      rw [ih f (fun hm => hcore (List.mem_cons_of_mem _ hm)) hf]

theorem replaceAll_exact (p0 : Char) (ps rep core : List Char) (h : p0 ∉ core) :
    replaceAll p0 ps rep (core ++ p0 :: ps) = core ++ rep := by
  unfold replaceAll
  refine replaceFuel_exact p0 ps rep core _ h ?_
  simp only [List.length_append, List.length_cons]
  omega

theorem containsSeq_eq_false (p0 : Char) (ps l : List Char) (h : p0 ∉ l) :
    containsSeq (p0 :: ps) l = false := by
  induction l with
  | nil => rfl
  | cons c rest ih =>
    have hc : (p0 == c) = false := by
      rw [beq_eq_false_iff_ne]
      intro hcp; exact h (hcp ▸ List.mem_cons_self _ _)
    simp [containsSeq, startsWithSeq, hc,
      ih (fun hm => h (List.mem_cons_of_mem _ hm))]

/-! ## Digit-block parse/render round trips -/

theorem read2_pad2 {n : Nat} (h : n < 100) (rest : List Char) :
    read2 (pad2 n ++ rest) = some (n, rest) := by
  have h1 := readDigit_digitChar (n / 10) (by omega)
  have h2 := readDigit_digitChar (n % 10) (by omega)
  simp only [pad2, List.cons_append, List.nil_append, read2, h1, h2, Option.some_bind]
  show some (10 * (n / 10) + n % 10, rest) = some (n, rest)
  have e : 10 * (n / 10) + n % 10 = n := by omega
  rw [e]

theorem pad4_decomp (n : Nat) : pad4 n = pad2 (n / 100) ++ pad2 (n % 100) := by
  simp only [pad2, pad4, List.cons_append, List.nil_append]
  have e1 : n / 100 / 10 = n / 1000 := by omega
  have e3 : n % 100 / 10 = n / 10 % 10 := by omega
  have e4 : n % 100 % 10 = n % 10 := by omega
  rw [e1, e3, e4]

theorem read4_pad4 {n : Nat} (h : n < 10000) (rest : List Char) :
    read4 (pad4 n ++ rest) = some (n, rest) := by
  rw [pad4_decomp, List.append_assoc]
  rw [read4, read2_pad2 (show n / 100 < 100 by omega)]
  simp only [Option.some_bind]
  rw [read2_pad2 (show n % 100 < 100 by omega)]
  simp only [Option.some_bind]
  show some (100 * (n / 100) + n % 100, rest) = some (n, rest)
  have e : 100 * (n / 100) + n % 100 = n := by omega
  rw [e]

theorem pad6_decomp (n : Nat) :
    pad6 n = pad2 (n / 10000) ++ pad2 (n / 100 % 100) ++ pad2 (n % 100) := by
  simp only [pad2, pad6, List.cons_append, List.nil_append, List.append_assoc]
  have e1 : n / 10000 / 10 = n / 100000 := by omega
  have e3 : n / 100 % 100 / 10 = n / 1000 % 10 := by omega
  have e4 : n / 100 % 100 % 10 = n / 100 % 10 := by omega
  have e5 : n % 100 / 10 = n / 10 % 10 := by omega
  have e6 : n % 100 % 10 = n % 10 := by omega
  rw [e1, e3, e4, e5, e6]

theorem read6_pad6 {n : Nat} (h : n < 1000000) (rest : List Char) :
    read6 (pad6 n ++ rest) = some (n, rest) := by
  rw [pad6_decomp, List.append_assoc, List.append_assoc]
  rw [read6, read2_pad2 (show n / 10000 < 100 by omega)]
  simp only [Option.some_bind]
  rw [read2_pad2 (show n / 100 % 100 < 100 by omega)]
  simp only [Option.some_bind]
  rw [read2_pad2 (show n % 100 < 100 by omega)]
  simp only [Option.some_bind]
  show some (10000 * (n / 10000) + 100 * (n / 100 % 100) + n % 100, rest) = some (n, rest)
  have e : 10000 * (n / 10000) + 100 * (n / 100 % 100) + n % 100 = n := by omega
  rw [e]

theorem expectChar_cons (c : Char) (rest : List Char) :
    expectChar c (c :: rest) = some rest := by
  simp [expectChar]

theorem readTz_utc0 : readTz ('+' :: (pad2 0 ++ ':' :: pad2 0)) = some (some 0, []) := by
  decide

/-! ## Calendar lemmas -/

set_option maxHeartbeats 4000000 in
theorem daysBeforeYear_succ (y : Nat) (h : 1 ≤ y) :
    daysBeforeYear (y + 1) = daysBeforeYear y + daysInYear y := by
  have hiff : (isLeap y = true) ↔ ((y % 4 = 0 ∧ ¬(y % 100 = 0)) ∨ y % 400 = 0) := by
    simp [isLeap]
  simp only [daysBeforeYear, daysInYear]
  by_cases hL : isLeap y = true
  · rw [if_pos hL]
    have hx := hiff.mp hL
    omega
  · rw [if_neg hL]
    have hx : ¬((y % 4 = 0 ∧ ¬(y % 100 = 0)) ∨ y % 400 = 0) := fun hc => hL (hiff.mpr hc)
    omega

theorem daysBeforeMonth_one (y : Nat) : daysBeforeMonth y 1 = 0 := by
  simp [daysBeforeMonth, daysBeforeMonthBase]

set_option maxHeartbeats 1600000 in
theorem daysBeforeMonth_succ (y m : Nat) (h1 : 1 ≤ m) (h12 : m ≤ 12) :
    daysBeforeMonth y (m + 1) = daysBeforeMonth y m + daysInMonth y m := by
  interval_cases m <;>
    by_cases hL : isLeap y = true <;>
      simp [daysBeforeMonth, daysBeforeMonthBase, daysInMonth, hL]

theorem daysBeforeMonth_13 (y : Nat) : daysBeforeMonth y 13 = daysInYear y := by
  by_cases hL : isLeap y = true <;>
    simp [daysBeforeMonth, daysBeforeMonthBase, daysInYear, hL]

/-- The greatest `g ≤ bound` with `f g < n` (for a weakly monotone threshold
situation): `g` is positive, in bound, below the threshold, and its
successor is at or above it. -/
theorem findGreatest_sandwich (f : Nat → Nat) (bound n : Nat)
    (hb : 1 ≤ bound) (h1 : f 1 < n) (h2 : n ≤ f (bound + 1)) :
    1 ≤ Nat.findGreatest (fun y => f y < n) bound ∧
    Nat.findGreatest (fun y => f y < n) bound ≤ bound ∧
    f (Nat.findGreatest (fun y => f y < n) bound) < n ∧
    n ≤ f (Nat.findGreatest (fun y => f y < n) bound + 1) := by
  have hge1 : 1 ≤ Nat.findGreatest (fun y => f y < n) bound :=
    Nat.le_findGreatest (P := fun y => f y < n) hb h1
  have hgle : Nat.findGreatest (fun y => f y < n) bound ≤ bound :=
    Nat.findGreatest_le bound
  have hPg : f (Nat.findGreatest (fun y => f y < n) bound) < n :=
    Nat.findGreatest_spec (P := fun y => f y < n) (m := 1) (n := bound) hb h1
  refine ⟨hge1, hgle, hPg, ?_⟩
  by_cases hcase : Nat.findGreatest (fun y => f y < n) bound = bound
  · rw [hcase]; exact h2
  · have hng := Nat.findGreatest_is_greatest
      (P := fun y => f y < n) (n := bound)
      (k := Nat.findGreatest (fun y => f y < n) bound + 1)
      (by omega) (by omega)
    omega

/-- `fromOrdinal` inverts `toOrdinal` on the supported day range, and yields
in-range calendar fields. -/
theorem fromOrdinal_toOrdinal (n : Nat) (hn1 : 1 ≤ n) (hn2 : n ≤ daysBeforeYear 10000) :
    toOrdinal (fromOrdinal n).1 (fromOrdinal n).2.1 (fromOrdinal n).2.2 = n ∧
    1 ≤ (fromOrdinal n).1 ∧ (fromOrdinal n).1 ≤ 9999 ∧
    1 ≤ (fromOrdinal n).2.1 ∧ (fromOrdinal n).2.1 ≤ 12 ∧
    1 ≤ (fromOrdinal n).2.2 ∧
    (fromOrdinal n).2.2 ≤ daysInMonth (fromOrdinal n).1 (fromOrdinal n).2.1 := by
  have hdby1 : daysBeforeYear 1 = 0 := by decide
  obtain ⟨hy1, hy2, hPy, hUy⟩ :=
    findGreatest_sandwich daysBeforeYear 9999 n (by norm_num) (by omega) hn2
  set y' := Nat.findGreatest (fun y => daysBeforeYear y < n) 9999 with hy'
  set rem := n - daysBeforeYear y' with hrem'
  have hstepY := daysBeforeYear_succ y' hy1
  have hrem1 : 1 ≤ rem := by omega
  have hremU : rem ≤ daysInYear y' := by omega
  obtain ⟨hm1, hm2, hQm, hUm⟩ :=
    findGreatest_sandwich (daysBeforeMonth y') 12 rem (by norm_num)
      (by rw [daysBeforeMonth_one]; omega)
      (by rw [show (12:Nat) + 1 = 13 from rfl, daysBeforeMonth_13]; exact hremU)
  set mo := Nat.findGreatest (fun m => daysBeforeMonth y' m < rem) 12 with hmo'
  have hstepM := daysBeforeMonth_succ y' mo hm1 hm2
  have hfo : fromOrdinal n = (y', mo, rem - daysBeforeMonth y' mo) := by
    rw [hy', hmo', hrem']
    rw [hy']
    rfl
  rw [hfo]
  simp only []
  refine ⟨?_, hy1, hy2, hm1, hm2, by omega, by omega⟩
  unfold toOrdinal
  omega

/-- `fromInstantUTC` inverts `toInstant` on the supported instant range and
yields a valid UTC datetime. -/
theorem toInstant_fromInstantUTC (t : Int) (h0 : 0 ≤ t)
    (h1 : t < (daysBeforeYear 10000 : Int) * (MICROS_PER_DAY : Int)) :
    toInstant (fromInstantUTC t) = t ∧ (fromInstantUTC t).validFields ∧
    (fromInstantUTC t).tz = some 0 := by
  have hds : daysBeforeYear 10000 = 3652059 := by decide
  have hMPD : MICROS_PER_DAY = 86400000000 := rfl
  have htn : ((t.toNat : Int)) = t := Int.toNat_of_nonneg h0
  have htlt : t.toNat < 3652059 * 86400000000 := by
    have h2 : t < (((3652059 * 86400000000 : Nat) : Int)) := by
      have h3 := h1
      rw [hds, hMPD] at h3
      exact_mod_cast h3
    omega
  obtain ⟨hord, hy1, hy2, hm1, hm2, hd1, hd2⟩ :=
    fromOrdinal_toOrdinal (t.toNat / MICROS_PER_DAY + 1)
      (Nat.succ_le_succ (Nat.zero_le _))
      (by rw [hds, hMPD]; omega)
  have hyr : (fromInstantUTC t).year = (fromOrdinal (t.toNat / MICROS_PER_DAY + 1)).1 := rfl
  have hmo : (fromInstantUTC t).month = (fromOrdinal (t.toNat / MICROS_PER_DAY + 1)).2.1 := rfl
  have hdy : (fromInstantUTC t).day = (fromOrdinal (t.toNat / MICROS_PER_DAY + 1)).2.2 := rfl
  have hhr : (fromInstantUTC t).hour = t.toNat % MICROS_PER_DAY / 3600000000 := rfl
  have hmi : (fromInstantUTC t).minute = t.toNat % MICROS_PER_DAY / 60000000 % 60 := rfl
  have hse : (fromInstantUTC t).second = t.toNat % MICROS_PER_DAY / 1000000 % 60 := rfl
  have hus : (fromInstantUTC t).microsecond = t.toNat % MICROS_PER_DAY % 1000000 := rfl
  have htz : (fromInstantUTC t).tz = some 0 := rfl
  refine ⟨?_, ?_, htz⟩
  · unfold toInstant
    rw [hyr, hmo, hdy, hhr, hmi, hse, hus, htz, hord]
    simp only [Option.getD_some]
    rw [hMPD]
    push_cast
    omega
  · unfold PyDatetime.validFields
    rw [hyr, hmo, hdy, hhr, hmi, hse, hus, htz]
    refine ⟨hy1, hy2, hm1, hm2, hd1, hd2, ?_, ?_, ?_, ?_, by decide, by decide⟩
    · rw [hMPD]; omega
    · omega
    · omega
    · omega

/-- `astimezone(timezone.utc)` preserves the denoted instant and produces a
valid UTC datetime (on the supported instant range). -/
theorem astimezoneUTC_spec (d : PyDatetime) (hv : d.validFields)
    (h0 : 0 ≤ toInstant d)
    (h1 : toInstant d < (daysBeforeYear 10000 : Int) * (MICROS_PER_DAY : Int)) :
    toInstant (astimezoneUTC d) = toInstant d ∧ (astimezoneUTC d).validFields ∧
    (astimezoneUTC d).tz = some 0 := by
  unfold astimezoneUTC
  by_cases h : d.tz = some 0
  · rw [if_pos h]; exact ⟨rfl, hv, h⟩
  · rw [if_neg h]; exact toInstant_fromInstantUTC (toInstant d) h0 h1

/-! ## Rendering and round-trip lemmas -/

theorem isoformatList_core (d : PyDatetime) (htz : d.tz = some 0) :
    isoformatList d = isoCore d ++ '+' :: (pad2 0 ++ ':' :: pad2 0) := by
  unfold isoformatList isoCore
  rw [htz]
  have hoff :
      ((if (0:Int) ≤ 0 then '+' else '-') ::
        (pad2 ((0:Int).natAbs / 60) ++ ':' :: pad2 ((0:Int).natAbs % 60))) =
      '+' :: (pad2 0 ++ ':' :: pad2 0) := by decide
  simp only [List.append_assoc, List.cons_append]
  rw [hoff]

theorem daysInMonth_le (y m : Nat) : daysInMonth y m ≤ 31 := by
  unfold daysInMonth
  split
  · norm_num
  · split <;> norm_num
  all_goals norm_num

theorem isoCore_chars (d : PyDatetime) (hv : d.validFields) :
    ∀ c ∈ isoCore d, c ≠ '+' ∧ c ≠ 'Z' := by
  obtain ⟨h1, h2, h3, h4, h5, h6, h7, h8, h9, h10, _, _⟩ := hv
  have hdim := daysInMonth_le d.year d.month
  intro c hc
  unfold isoCore at hc
  by_cases hus : d.microsecond = 0 <;>
    simp only [hus, ite_true, ite_false, if_true, if_false, pad4, pad2, pad6,
      List.append_nil, List.mem_append, List.mem_cons, List.not_mem_nil, or_false,
      or_assoc] at hc
  all_goals repeat' (rcases hc with rfl | hc)
  all_goals
    first
      | exact ⟨by decide, by decide⟩
      | exact digitChar_ne _ (by omega)

set_option maxHeartbeats 1600000 in
/-- Parsing inverts rendering for every valid UTC datetime. -/
theorem parse_isoformat_roundtrip (d : PyDatetime) (hv : d.validFields)
    (htz : d.tz = some 0) :
    parseIsoList (isoformatList d) = some d := by
  rw [isoformatList_core d htz]
  obtain ⟨yy, mo, dy, hh, mi, ss, us, tz⟩ := d
  obtain ⟨h1, h2, h3, h4, h5, h6, h7, h8, h9, h10, _, _⟩ := hv
  simp only at h1 h2 h3 h4 h5 h6 h7 h8 h9 h10 htz
  subst htz
  unfold isoCore parseIsoList
  simp only [List.append_assoc, List.cons_append]
  rw [read4_pad4 (by omega)]
  simp only [Option.some_bind]
  rw [expectChar_cons]
  simp only [Option.some_bind]
  rw [read2_pad2 (by omega)]
  simp only [Option.some_bind]
  rw [expectChar_cons]
  simp only [Option.some_bind]
  have hdim := daysInMonth_le yy mo
  rw [read2_pad2 (by omega)]
  simp only [Option.some_bind]
  rw [if_pos ⟨h1, h3, h4, h5, h6⟩]
  rw [read2_pad2 (by omega)]
  simp only [Option.some_bind]
  rw [expectChar_cons]
  simp only [Option.some_bind]
  rw [read2_pad2 (by omega)]
  simp only [Option.some_bind]
  rw [expectChar_cons]
  simp only [Option.some_bind]
  rw [read2_pad2 (by omega)]
  simp only [Option.some_bind]
  rw [if_pos (show hh ≤ 23 ∧ mi ≤ 59 ∧ ss ≤ 59 from ⟨h7, h8, h9⟩)]
  by_cases hus : us = 0
  · subst hus
    rw [if_pos rfl, List.nil_append]
    rw [if_neg (show ¬((('+' :: (pad2 0 ++ ':' :: pad2 0)).head?) = some ('.' : Char))
      by decide)]
    simp only [Option.some_bind]
    rw [readTz_utc0]
    simp only [Option.some_bind]
    simp
  · rw [if_neg hus, List.cons_append]
    rw [if_pos (show ('.' :: (pad6 us ++ '+' :: (pad2 0 ++ ':' :: pad2 0))).head? =
      some ('.' : Char) from rfl)]
    rw [List.tail_cons]
    rw [read6_pad6 (by omega)]
    simp only [Option.some_bind]
    rw [readTz_utc0]
    simp only [Option.some_bind]
    simp

theorem pyReplace_eq (s pat rep : String) (p0 : Char) (ps : List Char)
    (hp : pat.toList = p0 :: ps) :
    pyReplace s pat rep = String.mk (replaceAll p0 ps rep.toList s.toList) := by
  unfold pyReplace
  rw [hp]

/-! ## Claim theorems (orchestrator control flow) -/

/-- C1: for every finite module list and every supplied context,
`DiscoveryOrchestrator.run` returns exactly one `DiscoveryRunResult` whose
`context` field is reference-identical to the supplied context (same object,
identity tag included).  `run` is a total function of the module list — in
the embedding every modelled `execute` behavior (raising, returning
non-sequences, returning malformed elements) yields a result, so the call
completes regardless of what any individual module's `execute` does. -/
theorem run_returns_supplied_context (o : DiscoveryOrchestrator)
    (ctx : DiscoveryContext) (now : PyDatetime) :
    (o.run ctx now).context = ctx := rfl

/-- C2: a module whose `execute` raises contributes exactly a `module_error`
event naming it — message `str(exc)`, details carrying the exception class —
and zero findings; the findings of the whole run are exactly those of the
run with the faulting module removed (isolation). -/
theorem module_error_recorded_and_isolated
    (ms1 ms2 : List DiscoveryModule) (m : DiscoveryModule)
    (ctx : DiscoveryContext) (now : PyDatetime) (ty msg : String)
    (h : m.execute = .raises ty msg) :
    ({ module := m.name, event_type := "module_error", message := msg,
       observed_at := now, details := [("exception_type", ty)] } : OrchestratorEvent) ∈
        (DiscoveryOrchestrator.run ⟨ms1 ++ m :: ms2⟩ ctx now).events ∧
    (processModule ctx now m).1 = [] ∧
    (DiscoveryOrchestrator.run ⟨ms1 ++ m :: ms2⟩ ctx now).findings =
      (DiscoveryOrchestrator.run ⟨ms1 ++ ms2⟩ ctx now).findings := by
  have hout : executeAndNormalize m = .error ⟨ty, msg⟩ := by
    simp [executeAndNormalize, h]
  have hp : processModule ctx now m =
      ([], (if m.context.oid = ctx.oid then [] else [mismatchEvent ctx now m]) ++
        [errorEvent now m ⟨ty, msg⟩]) := by
    simp [processModule, hout]
  refine ⟨?_, by simp [hp], ?_⟩
  · show _ ∈ (runModules ctx now (ms1 ++ m :: ms2)).2
    rw [show (m :: ms2) = [m] ++ ms2 from rfl, runModules_append, runModules_append]
    simp only [List.mem_append]
    refine Or.inr (Or.inl ?_)
    simp [runModules, hp, errorEvent]
  · show (runModules ctx now (ms1 ++ m :: ms2)).1 = (runModules ctx now (ms1 ++ ms2)).1
    rw [show (m :: ms2) = [m] ++ ms2 from rfl, runModules_append, runModules_append,
      runModules_append]
    simp [runModules, hp]

/-- C2 witness: a raising module next to a well-behaved one. -/
theorem module_error_recorded_and_isolated_witness :
    raisingModule.execute = .raises "RuntimeError" "boom" ∧
    (({ module := "identity", event_type := "module_error", message := "boom",
        observed_at := sampleDt, details := [("exception_type", "RuntimeError")] } :
          OrchestratorEvent) ∈
        (DiscoveryOrchestrator.run ⟨[okModule, raisingModule]⟩ sampleCtx sampleDt).events ∧
     (processModule sampleCtx sampleDt raisingModule).1 = [] ∧
     (DiscoveryOrchestrator.run ⟨[okModule, raisingModule]⟩ sampleCtx sampleDt).findings =
       (DiscoveryOrchestrator.run ⟨[okModule]⟩ sampleCtx sampleDt).findings) :=
  ⟨rfl, module_error_recorded_and_isolated [okModule] [] raisingModule
    sampleCtx sampleDt "RuntimeError" "boom" rfl⟩

/-- C3: a module bound to a context that is not identity-equal to the run
context (even if structurally equal) contributes exactly one
`context_mismatch` event — module name, run target as `expected_target`, the
module's own bound target as `module_target` — and is still executed, its
normalized findings still aggregated in place. -/
theorem context_mismatch_recorded_still_executed
    (ms1 ms2 : List DiscoveryModule) (m : DiscoveryModule)
    (ctx : DiscoveryContext) (now : PyDatetime)
    (h : m.context.oid ≠ ctx.oid) :
    ((processModule ctx now m).2.filter fun e => e.event_type == "context_mismatch") =
      [{ module := m.name, event_type := "context_mismatch",
         message := "Module context does not match orchestrator run context.",
         observed_at := now,
         details := [("expected_target", ctx.target),
                     ("module_target", m.context.target)] }] ∧
    (∀ fs, executeAndNormalize m = .ok fs → (processModule ctx now m).1 = fs) ∧
    (DiscoveryOrchestrator.run ⟨ms1 ++ m :: ms2⟩ ctx now).findings =
      (runModules ctx now ms1).1 ++ (processModule ctx now m).1 ++
        (runModules ctx now ms2).1 := by
  refine ⟨?_, ?_, ?_⟩
  · unfold processModule
    cases hE : executeAndNormalize m <;>
      simp [h, mismatchEvent, errorEvent, List.filter]
  · intro fs hE
    simp [processModule, hE]
  · show (runModules ctx now (ms1 ++ m :: ms2)).1 = _
    rw [show (m :: ms2) = [m] ++ ms2 from rfl, runModules_append, runModules_append]
    simp [runModules, List.append_assoc]

/-- C3 witness: a module whose context is structurally equal to the run
context but a different object; it returns one finding which is still
aggregated. -/
theorem context_mismatch_recorded_still_executed_witness :
    ((⟨"network", sampleCtx2, .returns (.seq [.entity sampleFinding])⟩ :
        DiscoveryModule).context.oid ≠ sampleCtx.oid) ∧
    (((processModule sampleCtx sampleDt
        ⟨"network", sampleCtx2, .returns (.seq [.entity sampleFinding])⟩).2.filter
          fun e => e.event_type == "context_mismatch") =
      [{ module := "network", event_type := "context_mismatch",
         message := "Module context does not match orchestrator run context.",
         observed_at := sampleDt,
         details := [("expected_target", "10.0.0.5"),
                     ("module_target", "10.0.0.5")] }] ∧
     (∀ fs, executeAndNormalize
        ⟨"network", sampleCtx2, .returns (.seq [.entity sampleFinding])⟩ = .ok fs →
        (processModule sampleCtx sampleDt
          ⟨"network", sampleCtx2, .returns (.seq [.entity sampleFinding])⟩).1 = fs) ∧
     (DiscoveryOrchestrator.run
        ⟨[] ++ ⟨"network", sampleCtx2, .returns (.seq [.entity sampleFinding])⟩ :: []⟩
        sampleCtx sampleDt).findings =
       (runModules sampleCtx sampleDt []).1 ++
         (processModule sampleCtx sampleDt
           ⟨"network", sampleCtx2, .returns (.seq [.entity sampleFinding])⟩).1 ++
         (runModules sampleCtx sampleDt []).1) :=
  ⟨by decide, context_mismatch_recorded_still_executed [] []
    ⟨"network", sampleCtx2, .returns (.seq [.entity sampleFinding])⟩
    sampleCtx sampleDt (by decide)⟩

/-- C4: normalization is atomic per module — if any element of the returned
sequence fails to normalize (non-Finding, non-mapping shape, or an
unparseable `observed_at` string), the module contributes zero findings
(its earlier well-formed elements are discarded with the rest) and exactly
one `module_error` event is recorded for it. -/
theorem normalization_atomic_per_module
    (ms1 ms2 : List DiscoveryModule) (m : DiscoveryModule)
    (ctx : DiscoveryContext) (now : PyDatetime) (items : List RetItem)
    (hexec : m.execute = .returns (.seq items))
    (hbad : ∃ i ∈ items, ∃ e : PyExc, normItem i = .error e) :
    (processModule ctx now m).1 = [] ∧
    (∃ e : PyExc,
      ((processModule ctx now m).2.filter fun ev => ev.event_type == "module_error") =
        [errorEvent now m e]) ∧
    (DiscoveryOrchestrator.run ⟨ms1 ++ m :: ms2⟩ ctx now).findings =
      (DiscoveryOrchestrator.run ⟨ms1 ++ ms2⟩ ctx now).findings := by
  obtain ⟨e, he⟩ := normalizeList_error_of_mem items hbad
  have hout : executeAndNormalize m = .error e := by
    simp [executeAndNormalize, hexec, he]
  have hp : processModule ctx now m =
      ([], (if m.context.oid = ctx.oid then [] else [mismatchEvent ctx now m]) ++
        [errorEvent now m e]) := by
    simp [processModule, hout]
  refine ⟨by simp [hp], ⟨e, ?_⟩, ?_⟩
  · rw [hp]
    by_cases h : m.context.oid = ctx.oid <;>
      simp [h, mismatchEvent, errorEvent, List.filter]
  · show (runModules ctx now (ms1 ++ m :: ms2)).1 = (runModules ctx now (ms1 ++ ms2)).1
    rw [show (m :: ms2) = [m] ++ ms2 from rfl, runModules_append, runModules_append,
      runModules_append]
    simp [runModules, hp]

/-- C4 witness: a module returning one well-formed finding followed by a
mapping with an unparseable timestamp string contributes nothing. -/
theorem normalization_atomic_per_module_witness :
    ((⟨"identity", sampleCtx,
        .returns (.seq [.entity sampleFinding,
          .mapping ⟨"identity", "user", "u1", [], 1/2, .inl "not-a-timestamp"⟩])⟩ :
      DiscoveryModule).execute =
        .returns (.seq [.entity sampleFinding,
          .mapping ⟨"identity", "user", "u1", [], 1/2, .inl "not-a-timestamp"⟩])) ∧
    (∃ i ∈ [RetItem.entity sampleFinding,
            RetItem.mapping ⟨"identity", "user", "u1", [], 1/2, .inl "not-a-timestamp"⟩],
      ∃ e : PyExc, normItem i = .error e) ∧
    ((processModule sampleCtx sampleDt
        ⟨"identity", sampleCtx,
          .returns (.seq [.entity sampleFinding,
            .mapping ⟨"identity", "user", "u1", [], 1/2, .inl "not-a-timestamp"⟩])⟩).1 = [] ∧
     (∃ e : PyExc,
        ((processModule sampleCtx sampleDt
          ⟨"identity", sampleCtx,
            .returns (.seq [.entity sampleFinding,
              .mapping ⟨"identity", "user", "u1", [], 1/2, .inl "not-a-timestamp"⟩])⟩).2.filter
            fun ev => ev.event_type == "module_error") =
          [errorEvent sampleDt
            ⟨"identity", sampleCtx,
              .returns (.seq [.entity sampleFinding,
                .mapping ⟨"identity", "user", "u1", [], 1/2, .inl "not-a-timestamp"⟩])⟩ e]) ∧
     (DiscoveryOrchestrator.run
        ⟨[okModule] ++ ⟨"identity", sampleCtx,
          .returns (.seq [.entity sampleFinding,
            .mapping ⟨"identity", "user", "u1", [], 1/2, .inl "not-a-timestamp"⟩])⟩ :: []⟩
        sampleCtx sampleDt).findings =
       (DiscoveryOrchestrator.run ⟨[okModule] ++ []⟩ sampleCtx sampleDt).findings) := by
  refine ⟨rfl, ?_, ?_⟩
  · exact ⟨.mapping ⟨"identity", "user", "u1", [], 1/2, .inl "not-a-timestamp"⟩,
      by simp, ⟨"ValueError", "Invalid isoformat string: not-a-timestamp"⟩, rfl⟩
  · exact normalization_atomic_per_module [okModule] []
      ⟨"identity", sampleCtx,
        .returns (.seq [.entity sampleFinding,
          .mapping ⟨"identity", "user", "u1", [], 1/2, .inl "not-a-timestamp"⟩])⟩
      sampleCtx sampleDt _ rfl
      ⟨.mapping ⟨"identity", "user", "u1", [], 1/2, .inl "not-a-timestamp"⟩,
        by simp, ⟨"ValueError", "Invalid isoformat string: not-a-timestamp"⟩, rfl⟩

/-- C5: normalization is shape-agnostic — a module returning a canonical
`DiscoveryFinding` and a module returning the equivalent mapping whose
`observed_at` is the corresponding `Z`-suffixed ISO-8601 string (exactly the
string `to_dict` renders) normalize identically, so the aggregated findings
serialize (`to_dict`) byte-identically. -/
theorem normalization_shape_agnostic
    (ctx : DiscoveryContext) (now : PyDatetime) (f : DiscoveryFinding)
    (mEnt mMap : DiscoveryModule)
    (hE : mEnt.execute = .returns (.seq [.entity f]))
    (hM : mMap.execute = .returns (.seq [.mapping
      ⟨f.domain, f.category, f.target, f.evidence, f.confidence,
        .inl f.to_dict.observed_at⟩])) :
    normItem (.entity f) = normItem (.mapping
      ⟨f.domain, f.category, f.target, f.evidence, f.confidence,
        .inl f.to_dict.observed_at⟩) ∧
    (DiscoveryOrchestrator.run ⟨[mEnt]⟩ ctx now).findings.map DiscoveryFinding.to_dict =
      (DiscoveryOrchestrator.run ⟨[mMap]⟩ ctx now).findings.map DiscoveryFinding.to_dict := by
  have h1 : normItem (.entity f) = normItem (.mapping
      ⟨f.domain, f.category, f.target, f.evidence, f.confidence,
        .inl f.to_dict.observed_at⟩) := rfl
  have h2 : executeAndNormalize mEnt = executeAndNormalize mMap := by
    rw [executeAndNormalize, executeAndNormalize, hE, hM]
    simp [normalizeList, h1]
  have h3 : (processModule ctx now mEnt).1 = (processModule ctx now mMap).1 := by
    unfold processModule
    rw [h2]
    cases executeAndNormalize mMap <;> simp
  refine ⟨h1, ?_⟩
  show ((runModules ctx now [mEnt]).1.map _) = ((runModules ctx now [mMap]).1.map _)
  simp [runModules, h3]

/-- C5 witness: `okModule` (entity shape) and `mapModule` (mapping shape with
the rendered `Z` string) produce byte-identical serialized findings. -/
theorem normalization_shape_agnostic_witness :
    (okModule.execute = .returns (.seq [.entity sampleFinding]) ∧
     mapModule.execute = .returns (.seq [.mapping
       ⟨sampleFinding.domain, sampleFinding.category, sampleFinding.target,
        sampleFinding.evidence, sampleFinding.confidence,
        .inl sampleFinding.to_dict.observed_at⟩])) ∧
    (DiscoveryOrchestrator.run ⟨[okModule]⟩ sampleCtx sampleDt).findings.map
        DiscoveryFinding.to_dict =
      (DiscoveryOrchestrator.run ⟨[mapModule]⟩ sampleCtx sampleDt).findings.map
        DiscoveryFinding.to_dict :=
  ⟨⟨rfl, rfl⟩,
    (normalization_shape_agnostic sampleCtx sampleDt sampleFinding okModule mapModule
      rfl rfl).2⟩

/-- C6: for every `DiscoveryFinding` whose `observed_at` is timezone-aware
(with the in-range fields Python `datetime` guarantees, and denoting an
instant within the representable year range 1–9999), `to_dict` renders
`observed_at` as an ISO-8601 string with a literal trailing `Z` and no
`+00:00` anywhere in it; and parsing that string back by replacing `Z` with
`+00:00` succeeds and yields a timestamp denoting exactly the same instant
as the original — equality holds to full microsecond precision, hence in
particular to at least second precision. -/
theorem timestamp_roundtrip (f : DiscoveryFinding)
    (hv : f.observed_at.validFields)
    (haware : f.observed_at.tz.isSome = true)
    (h0 : 0 ≤ toInstant f.observed_at)
    (h1 : toInstant f.observed_at <
      (daysBeforeYear 10000 : Int) * (MICROS_PER_DAY : Int)) :
    (f.to_dict.observed_at.toList.getLast? = some 'Z' ∧
     containsSeq ("+00:00".toList) f.to_dict.observed_at.toList = false) ∧
    ∃ d : PyDatetime,
      parseIso (pyReplace f.to_dict.observed_at "Z" "+00:00") = some d ∧
      toInstant d = toInstant f.observed_at := by
  obtain ⟨hinst, hv', htz'⟩ := astimezoneUTC_spec f.observed_at hv h0 h1
  have hchars := isoCore_chars (astimezoneUTC f.observed_at) hv'
  have hplus : '+' ∉ isoCore (astimezoneUTC f.observed_at) :=
    fun hm => (hchars _ hm).1 rfl
  have hZna : 'Z' ∉ isoCore (astimezoneUTC f.observed_at) :=
    fun hm => (hchars _ hm).2 rfl
  have hps : ('+' : Char) :: (pad2 0 ++ ':' :: pad2 0) =
      '+' :: '0' :: '0' :: ':' :: '0' :: '0' :: [] := by decide
  have hiso : isoformatList (astimezoneUTC f.observed_at) =
      isoCore (astimezoneUTC f.observed_at) ++
        '+' :: '0' :: '0' :: ':' :: '0' :: '0' :: [] := by
    rw [isoformatList_core _ htz', hps]
  have hpatl : ("+00:00" : String).toList =
      '+' :: '0' :: '0' :: ':' :: '0' :: '0' :: [] := rfl
  have hser : (f.to_dict.observed_at).toList =
      isoCore (astimezoneUTC f.observed_at) ++ ['Z'] := by
    have he : f.to_dict.observed_at =
        pyReplace (astimezoneUTC f.observed_at).isoformat "+00:00" "Z" := rfl
    rw [he, pyReplace_eq _ _ _ '+' ('0' :: '0' :: ':' :: '0' :: '0' :: []) hpatl]
    show replaceAll '+' ('0' :: '0' :: ':' :: '0' :: '0' :: [])
        ("Z" : String).toList ((astimezoneUTC f.observed_at).isoformat).toList =
      isoCore (astimezoneUTC f.observed_at) ++ ['Z']
    rw [show ((astimezoneUTC f.observed_at).isoformat).toList =
        isoformatList (astimezoneUTC f.observed_at) from rfl, hiso]
    exact replaceAll_exact '+' _ _ _ hplus
  refine ⟨⟨?_, ?_⟩, ?_⟩
  · rw [hser]
    exact List.getLast?_concat _
  · rw [hpatl, hser]
    apply containsSeq_eq_false
    intro hm
    rcases List.mem_append.mp hm with hm1 | hm1
    · exact hplus hm1
    · simp only [List.mem_singleton] at hm1
      exact absurd hm1 (by decide)
  · refine ⟨astimezoneUTC f.observed_at, ?_, hinst⟩
    rw [pyReplace_eq _ _ _ 'Z' [] rfl]
    show parseIsoList (replaceAll 'Z' [] ("+00:00" : String).toList
        (f.to_dict.observed_at).toList) = some (astimezoneUTC f.observed_at)
    rw [hser, hpatl]
    rw [show (isoCore (astimezoneUTC f.observed_at) ++ ['Z'] : List Char) =
        isoCore (astimezoneUTC f.observed_at) ++ 'Z' :: [] from rfl]
    rw [replaceAll_exact 'Z' [] _ _ hZna]
    rw [← hiso]
    exact parse_isoformat_roundtrip _ hv' htz'

/-- C6 witness: a finding observed at 2025-03-15T01:20:30.500000+05:30 —
an aware, non-UTC timestamp — satisfies all hypotheses, so its rendering is
`Z`-terminated and parses back to the same instant. -/
theorem timestamp_roundtrip_witness :
    ((⟨2025, 3, 15, 1, 20, 30, 500000, some 330⟩ : PyDatetime).validFields ∧
     ((⟨2025, 3, 15, 1, 20, 30, 500000, some 330⟩ : PyDatetime).tz.isSome = true) ∧
     0 ≤ toInstant ⟨2025, 3, 15, 1, 20, 30, 500000, some 330⟩ ∧
     toInstant ⟨2025, 3, 15, 1, 20, 30, 500000, some 330⟩ <
       (daysBeforeYear 10000 : Int) * (MICROS_PER_DAY : Int)) ∧
    (((DiscoveryFinding.to_dict ⟨"network", "open_port", "10.0.0.5:80", [], 1,
          ⟨2025, 3, 15, 1, 20, 30, 500000, some 330⟩⟩).observed_at.toList.getLast? =
        some 'Z' ∧
      containsSeq ("+00:00".toList)
        (DiscoveryFinding.to_dict ⟨"network", "open_port", "10.0.0.5:80", [], 1,
          ⟨2025, 3, 15, 1, 20, 30, 500000, some 330⟩⟩).observed_at.toList = false) ∧
     ∃ d : PyDatetime,
       parseIso (pyReplace
         (DiscoveryFinding.to_dict ⟨"network", "open_port", "10.0.0.5:80", [], 1,
           ⟨2025, 3, 15, 1, 20, 30, 500000, some 330⟩⟩).observed_at "Z" "+00:00") =
           some d ∧
       toInstant d = toInstant ⟨2025, 3, 15, 1, 20, 30, 500000, some 330⟩) :=
  ⟨⟨by decide, by decide, by decide, by decide⟩,
    timestamp_roundtrip
      ⟨"network", "open_port", "10.0.0.5:80", [], 1,
        ⟨2025, 3, 15, 1, 20, 30, 500000, some 330⟩⟩
      (by decide) (by decide) (by decide) (by decide)⟩

/-- C7: a module whose `execute` returns a non-sequence hits the same
containment path as a raising module: iterating the value raises
`TypeError`, exactly one `module_error` event is recorded for the module, it
contributes zero findings, and the remaining modules still run. -/
theorem nonsequence_return_contained
    (ms1 ms2 : List DiscoveryModule) (m : DiscoveryModule)
    (ctx : DiscoveryContext) (now : PyDatetime) (ty : String)
    (h : m.execute = .returns (.nonSeq ty)) :
    (processModule ctx now m).1 = [] ∧
    ((processModule ctx now m).2.filter fun ev => ev.event_type == "module_error") =
      [errorEvent now m ⟨"TypeError", "'" ++ ty ++ "' object is not iterable"⟩] ∧
    (DiscoveryOrchestrator.run ⟨ms1 ++ m :: ms2⟩ ctx now).findings =
      (DiscoveryOrchestrator.run ⟨ms1 ++ ms2⟩ ctx now).findings ∧
    (DiscoveryOrchestrator.run ⟨ms1 ++ m :: ms2⟩ ctx now).events =
      (runModules ctx now ms1).2 ++ (processModule ctx now m).2 ++
        (runModules ctx now ms2).2 := by
  have hout : executeAndNormalize m =
      .error ⟨"TypeError", "'" ++ ty ++ "' object is not iterable"⟩ := by
    simp [executeAndNormalize, h]
  have hp : processModule ctx now m =
      ([], (if m.context.oid = ctx.oid then [] else [mismatchEvent ctx now m]) ++
        [errorEvent now m ⟨"TypeError", "'" ++ ty ++ "' object is not iterable"⟩]) := by
    simp [processModule, hout]
  refine ⟨by simp [hp], ?_, ?_, ?_⟩
  · rw [hp]
    by_cases hc : m.context.oid = ctx.oid <;>
      simp [hc, mismatchEvent, errorEvent, List.filter]
  · show (runModules ctx now (ms1 ++ m :: ms2)).1 = (runModules ctx now (ms1 ++ ms2)).1
    rw [show (m :: ms2) = [m] ++ ms2 from rfl, runModules_append, runModules_append,
      runModules_append]
    simp [runModules, hp]
  · show (runModules ctx now (ms1 ++ m :: ms2)).2 = _
    rw [show (m :: ms2) = [m] ++ ms2 from rfl, runModules_append, runModules_append]
    simp [runModules, List.append_assoc]

/-- C7 witness: a module returning the integer 42 instead of a sequence. -/
theorem nonsequence_return_contained_witness :
    ((⟨"network", sampleCtx, .returns (.nonSeq "int")⟩ : DiscoveryModule).execute =
      .returns (.nonSeq "int")) ∧
    ((processModule sampleCtx sampleDt
        ⟨"network", sampleCtx, .returns (.nonSeq "int")⟩).1 = [] ∧
     ((processModule sampleCtx sampleDt
        ⟨"network", sampleCtx, .returns (.nonSeq "int")⟩).2.filter
          fun ev => ev.event_type == "module_error") =
      [errorEvent sampleDt ⟨"network", sampleCtx, .returns (.nonSeq "int")⟩
        ⟨"TypeError", "'" ++ "int" ++ "' object is not iterable"⟩] ∧
     (DiscoveryOrchestrator.run
        ⟨[] ++ ⟨"network", sampleCtx, .returns (.nonSeq "int")⟩ :: [okModule]⟩
        sampleCtx sampleDt).findings =
       (DiscoveryOrchestrator.run ⟨[] ++ [okModule]⟩ sampleCtx sampleDt).findings ∧
     (DiscoveryOrchestrator.run
        ⟨[] ++ ⟨"network", sampleCtx, .returns (.nonSeq "int")⟩ :: [okModule]⟩
        sampleCtx sampleDt).events =
       (runModules sampleCtx sampleDt []).2 ++
         (processModule sampleCtx sampleDt
           ⟨"network", sampleCtx, .returns (.nonSeq "int")⟩).2 ++
         (runModules sampleCtx sampleDt [okModule]).2) :=
  ⟨rfl, nonsequence_return_contained [] [okModule]
    ⟨"network", sampleCtx, .returns (.nonSeq "int")⟩ sampleCtx sampleDt "int" rfl⟩

/-- C8: findings and events appear grouped per module in module-list order,
each module's block in its own emission order (concatenation — no
reordering, no deduplication); the empty module list yields empty findings,
empty events and the supplied context unchanged. -/
theorem run_ordering_and_empty_case (o : DiscoveryOrchestrator)
    (ctx : DiscoveryContext) (now : PyDatetime) :
    (o.run ctx now).findings =
      (o.modules.map fun m => (processModule ctx now m).1).flatten ∧
    (o.run ctx now).events =
      (o.modules.map fun m => (processModule ctx now m).2).flatten ∧
    DiscoveryOrchestrator.run ⟨[]⟩ ctx now = ⟨ctx, [], []⟩ := by
  refine ⟨?_, ?_, rfl⟩ <;>
    simp [DiscoveryOrchestrator.run, runModules_eq_flatten ctx now o.modules]

/-- C10: every event in a run result is a `context_mismatch` or a
`module_error`; each module position contributes at most one of each, so the
events list never exceeds twice the module-list length. -/
theorem run_event_taxonomy_and_bound (o : DiscoveryOrchestrator)
    (ctx : DiscoveryContext) (now : PyDatetime) :
    (∀ e ∈ (o.run ctx now).events,
      e.event_type = "context_mismatch" ∨ e.event_type = "module_error") ∧
    (∀ m : DiscoveryModule,
      ((processModule ctx now m).2.filter
          fun e => e.event_type == "context_mismatch").length ≤ 1 ∧
      ((processModule ctx now m).2.filter
          fun e => e.event_type == "module_error").length ≤ 1) ∧
    (o.run ctx now).events.length ≤ 2 * o.modules.length := by
  have h := runModules_events_taxonomy ctx now o.modules
  refine ⟨h.2, ?_, h.1⟩
  intro m
  rcases processModule_events_shape ctx now m with hs | hs | ⟨e, hs⟩ | ⟨e, hs⟩ <;>
    rw [hs] <;> simp [mismatchEvent, errorEvent, List.filter]

/-- C9 counterexample: nothing in the dataclass or in the normalization path
checks the claimed invariant.  A module returning a mapping with confidence
5 and a naive (timezone-unaware) datetime yields a `DiscoveryFinding` in the
run result with confidence outside `[0, 1]` and a naive `observed_at`. -/
theorem finding_invariant_counterexample :
    (DiscoveryOrchestrator.run
      ⟨[⟨"identity", sampleCtx,
          .returns (.seq [.mapping ⟨"identity", "user_enum", "u1", [], 5,
            .inr ⟨2025, 6, 1, 12, 0, 0, 0, none⟩⟩])⟩]⟩
      sampleCtx sampleDt).findings =
      [⟨"identity", "user_enum", "u1", [], 5, ⟨2025, 6, 1, 12, 0, 0, 0, none⟩⟩] ∧
    ¬((5 : Rat) ≤ 1) ∧
    (⟨2025, 6, 1, 12, 0, 0, 0, none⟩ : PyDatetime).tz = none := by
  refine ⟨by decide, by norm_num, rfl⟩

/-- C9 (amended): the invariant is not enforced by the code; it holds for a
normalized finding exactly to the extent the module supplied it.
Normalization preserves the mapping's confidence unchanged and yields a
tz-aware `observed_at` when the supplied timestamp string parses to an
aware datetime (e.g. any `Z`-suffixed or offset-carrying ISO string). -/
theorem finding_invariant_amended
    (m : FindingMapping) (h0 : 0 ≤ m.confidence) (h1 : m.confidence ≤ 1)
    (s : String) (hs : m.observed_at = .inl s)
    (d : PyDatetime) (hp : parseObservedAt s = .ok d) (ha : d.tz.isSome) :
    normItem (.mapping m) =
      .ok ⟨m.domain, m.category, m.target, m.evidence, m.confidence, d⟩ ∧
    0 ≤ m.confidence ∧ m.confidence ≤ 1 ∧ d.tz.isSome := by
  refine ⟨?_, h0, h1, ha⟩
  simp [normItem, hs, hp, Except.map]

/-- C9 amendment witness: an in-range mapping with a `Z`-suffixed timestamp
normalizes to a finding satisfying the invariant. -/
theorem finding_invariant_amended_witness :
    ((0 : Rat) ≤ 7/10 ∧ (7 : Rat)/10 ≤ 1 ∧
     parseObservedAt "2025-06-01T12:00:00Z" = .ok sampleDt ∧
     (sampleDt.tz.isSome = true)) ∧
    (normItem (.mapping ⟨"identity", "user_enum", "u1", [], 7/10,
        .inl "2025-06-01T12:00:00Z"⟩) =
      .ok ⟨"identity", "user_enum", "u1", [], 7/10, sampleDt⟩ ∧
     (0 : Rat) ≤ 7/10 ∧ (7 : Rat)/10 ≤ 1 ∧ sampleDt.tz.isSome) := by
  refine ⟨⟨by norm_num, by norm_num, rfl, by decide⟩, ?_⟩
  exact finding_invariant_amended
    ⟨"identity", "user_enum", "u1", [], 7/10, .inl "2025-06-01T12:00:00Z"⟩
    (by norm_num) (by norm_num) "2025-06-01T12:00:00Z" rfl sampleDt rfl (by decide)

end NetDisc
